import Mathlib

/-
Verification of the stream-resolution pipeline of `src/api/index.js`
(a Stremio addon scraping m3u8 stream locators with a primary source,
a failover source and a Redis cache).

The JavaScript source is shallowly embedded: each function of the source
is translated into a Lean definition over explicit data.  Platform
primitives (axios, cheerio, RegExp, WHATWG URL, JSON, ioredis) are
modelled by small executable Lean functions whose doc comments state
exactly which primitive behaviour they capture.
-/

namespace Scraper

/-- A stream object pushed by the resolvers (`streams.push` at lines
139-143, 146-150, 180-184 of `src/api/index.js`): fields `title`,
`url`, `name`. -/
structure StreamLocator where
  title : String
  url : String
  name : String
deriving DecidableEq

/-- An HTML element as far as the source observes it through cheerio:
a tag name and an optional `src` attribute.  `attrSrc = none` models an
element without a `src` attribute. -/
structure Element where
  tag : String
  attrSrc : Option String
deriving DecidableEq

/-- Model of `cheerio.load(html); $(\x27iframe\x27).attr(\x27src\x27)`
(lines 113, 171): the `src` attribute of the first element whose tag is
`iframe`, in document order; `none` when there is no iframe element or
the first iframe element has no `src` attribute. -/
def iframeSrcAttr (doc : List Element) : Option String :=
  (doc.find? fun e => e.tag = "iframe").bind Element.attrSrc

/-- The inline-frame extraction step of both resolvers (lines 113-114 and
171-172): take the `src` attribute of the first iframe and throw
`Iframe not found` when the attribute is JavaScript-falsy (absent
attribute or empty string). -/
def extractFrameSource (doc : List Element) : Except String String :=
  match iframeSrcAttr doc with
  | none => Except.error "Iframe not found"
  | some s => if s = "" then Except.error "Iframe not found" else Except.ok s

/-- Boolean test of whether `pat` is an initial segment of `l`. -/
def leadsWith : List Char → List Char → Bool
  | [], _ => true
  | _ :: _, [] => false
  | p :: ps, c :: cs => p = c && leadsWith ps cs

/-- Boolean test of whether `pat` occurs as a contiguous run somewhere
in `l`. -/
def containsSub (pat : List Char) : List Char → Bool
  | [] => leadsWith pat []
  | c :: cs => leadsWith pat (c :: cs) || containsSub pat cs

/-- The characters of the literal `.m3u8`. -/
def m3u8Lit : List Char := ['.', 'm', '3', 'u', '8']

/-- The characters of `https://`. -/
def httpsLit : List Char := ['h', 't', 't', 'p', 's', ':', '/', '/']

/-- The characters of `http://`. -/
def httpLit : List Char := ['h', 't', 't', 'p', ':', '/', '/']

/-- Double quote or single quote, the character class excluded by
`[^"\x27]` in the master-manifest regex. -/
def isQuoteChar (c : Char) : Bool := c = '"' || c = '\x27'

/-- Matches the `https?:\/\/` head of the master-manifest regex at the
start of `l`: returns the scheme characters consumed and the remainder.
The `s?` is greedy, so `https://` is preferred over `http://`. -/
def httpSchemeSplit (l : List Char) : Option (List Char × List Char) :=
  if leadsWith httpsLit l then some (httpsLit, l.drop 8)
  else if leadsWith httpLit l then some (httpLit, l.drop 7)
  else none

/-- Model of `text.match(/(https?:\/\/[^"\x27]+\.m3u8[^"\x27]*)/)`
(lines 119 and 177), returning the first (leftmost) match.  At a
position where `https?:\/\/` matches, the greedy `[^"\x27]+`/`[^"\x27]*`
parts together consume the maximal run of non-quote characters, and the
whole pattern matches there exactly when `.m3u8` occurs inside that run
at offset at least one. -/
def m3u8MasterScan : List Char → Option (List Char)
  | [] => none
  | c :: rest =>
    match httpSchemeSplit (c :: rest) with
    | some (scheme, after) =>
      let run := after.takeWhile (fun ch => !(isQuoteChar ch))
      if containsSub m3u8Lit (run.drop 1) then some (scheme ++ run)
      else m3u8MasterScan rest
    | none => m3u8MasterScan rest

/-- String-level wrapper of `m3u8MasterScan`. -/
def m3u8MasterScanS (s : String) : Option String :=
  (m3u8MasterScan s.data).map String.mk

/-- ASCII letter test, used for URL scheme detection. -/
def isAsciiAlpha (c : Char) : Bool :=
  ('a' ≤ c && c ≤ 'z') || ('A' ≤ c && c ≤ 'Z')

/-- Non-initial characters permitted in a URL scheme. -/
def isSchemeTailChar (c : Char) : Bool :=
  isAsciiAlpha c || c.isDigit || c = '+' || c = '-' || c = '.'

/-- Scans the tail of a candidate scheme: succeeds on reaching `:`
having seen only scheme characters. -/
def schemeTail : List Char → Bool
  | [] => false
  | c :: rest => if c = ':' then true else isSchemeTailChar c && schemeTail rest

/-- Whether `l` begins with an explicit URL scheme
(ASCII letter, then letters, digits, `+`, `-` or `.`, then `:`),
the WHATWG test deciding whether a URL string is absolute. -/
def hasUrlScheme : List Char → Bool
  | [] => false
  | c :: rest => isAsciiAlpha c && schemeTail rest

/-- Splits an authority at its last colon into host and port; `none`
for the port when the authority has no colon. -/
def hostPortSplit (auth : List Char) : List Char × Option (List Char) :=
  if auth.contains ':' then
    let rev := auth.reverse
    (((rev.dropWhile (fun c => c ≠ ':')).drop 1).reverse,
      some (rev.takeWhile (fun c => c ≠ ':')).reverse)
  else (auth, none)

/-- Numeric value of a digit run. -/
def portValue (ds : List Char) : Nat :=
  ds.foldl (fun acc c => acc * 10 + (c.toNat - 48)) 0

/-- Whether a port component is acceptable to the WHATWG parser:
absent, empty, or all digits with value at most 65535. -/
def portOk : Option (List Char) → Bool
  | none => true
  | some [] => true
  | some ds => ds.all Char.isDigit && portValue ds ≤ 65535

/-- Whether the WHATWG parser accepts the authority of a special-scheme
URL.  The failure modes modelled — the ones the constructor turns into
a thrown `Invalid URL` — are an empty host, a space in the host, and a
non-numeric or out-of-range port; IDNA mapping, percent-encoding,
IPv6 bracket syntax, userinfo and whitespace stripping are outside the
model. -/
def authorityOk (auth : List Char) : Bool :=
  !(hostPortSplit auth).1.isEmpty
    && (hostPortSplit auth).1.all (fun c => c ≠ ' ')
    && portOk (hostPortSplit auth).2

/-- Lowercased scheme of a scheme-carrying URL string (the characters
before the first colon). -/
def schemeLower (rel : List Char) : List Char :=
  (rel.takeWhile (fun c => c ≠ ':')).map Char.toLower

/-- Whether a scheme is one of the WHATWG special schemes that carry a
parsed authority (the file scheme, whose host may be empty, is left
out and treated like the non-special schemes). -/
def isSpecialHttpLike (sch : List Char) : Bool :=
  sch = "http".data || sch = "https".data || sch = "ws".data
    || sch = "wss".data || sch = "ftp".data

/-- Whether the WHATWG constructor accepts `rel` parsed standalone (the
scheme-carrying case): a special scheme followed by `//` must carry a
valid authority, otherwise the constructor throws; non-special schemes
take an opaque path and do not throw.  A special scheme without `//`
(which the real parser re-interprets) is outside the model and taken
as accepted. -/
def absoluteRelOk (rel : List Char) : Bool :=
  if isSpecialHttpLike (schemeLower rel) then
    if leadsWith ['/', '/'] ((rel.dropWhile (fun c => c ≠ ':')).drop 1) then
      authorityOk ((((rel.dropWhile (fun c => c ≠ ':')).drop 1).drop 2).takeWhile
        (fun c => c ≠ '/' && c ≠ '?' && c ≠ '#'))
    else true
  else true

/-- Model of `new URL(rel, base).href` (line 133) for the http(s) bases
this program produces; `none` models the constructor throwing, which
the resolver's try-block turns into an empty result.  A `rel` carrying
an explicit scheme is returned unchanged when `absoluteRelOk` accepts
it (WHATWG would additionally normalise it) and fails otherwise — e.g.
an out-of-range port as in `http://h:99999/x.m3u8` or a space in the
host; a protocol-relative `rel` adopts the base scheme after the same
authority check; root-relative and plain-relative `rel`s resolve
against the base's origin and directory and never throw.  Dot-segments
are not normalised; a non-http(s) base returns `rel` unchanged (that
branch is unreachable from the resolvers, whose bases always come from
`m3u8MasterScan`). -/
def urlResolveL (rel base : List Char) : Option (List Char) :=
  if hasUrlScheme rel then
    if absoluteRelOk rel then some rel else none
  else
    match httpSchemeSplit base with
    | none => some rel
    | some (scheme, after) =>
      let host := after.takeWhile (fun c => c ≠ '/')
      let path := after.dropWhile (fun c => c ≠ '/')
      if leadsWith ['/', '/'] rel then
        if authorityOk ((rel.drop 2).takeWhile
            (fun c => c ≠ '/' && c ≠ '?' && c ≠ '#')) then
          some (scheme.take (scheme.length - 2) ++ rel)
        else none
      else if leadsWith ['/'] rel then some (scheme ++ host ++ rel)
      else
        let dir := (path.reverse.dropWhile (fun c => c ≠ '/')).reverse
        if dir = [] then some (scheme ++ host ++ '/' :: rel)
        else some (scheme ++ host ++ dir ++ rel)

/-- String-level wrapper of `urlResolveL`. -/
def urlResolveS (rel base : String) : Option String :=
  (urlResolveL rel.data base.data).map String.mk

/-- The characters of the literal `#EXT-X-STREAM-INF:`. -/
def streamInfLit : List Char :=
  ['#', 'E', 'X', 'T', '-', 'X', '-', 'S', 'T', 'R', 'E', 'A', 'M', '-',
   'I', 'N', 'F', ':']

/-- The characters of the literal `RESOLUTION=`. -/
def resolutionLit : List Char :=
  ['R', 'E', 'S', 'O', 'L', 'U', 'T', 'I', 'O', 'N', '=']

/-- The characters ECMAScript `.` (without the s flag) refuses to
match: the line terminators LF, CR, U+2028 and U+2029. -/
def isRegexLineTerminator (c : Char) : Bool :=
  c = '\n' || c = '\r' || c = '\u2028' || c = '\u2029'

/-- The `.*?\n` step of the variant regex: the lazy `.` run extends to
the first LF, and fails if any other line terminator (CR, U+2028,
U+2029) stands before it — `.` matches none of them, so a CRLF line
can never satisfy `.*?\n`.  Returns the consumed characters before the
LF and the remainder after it. -/
def splitAtNewline : List Char → Option (List Char × List Char)
  | [] => none
  | c :: rest =>
    if c = '\n' then some ([], rest)
    else if isRegexLineTerminator c then none
    else (splitAtNewline rest).map fun p => (c :: p.1, p.2)

/-- Attempts `RESOLUTION=\d+x(\d+)` at the start of `l`; on success
returns the capture, the maximal digit run standing for the vertical
resolution.  Both digit runs are greedy and must be non-empty. -/
def tryResolutionAt (l : List Char) : Option (List Char) :=
  if leadsWith resolutionLit l then
    let afterKey := l.drop resolutionLit.length
    let width := afterKey.takeWhile Char.isDigit
    let afterWidth := afterKey.drop width.length
    match width, afterWidth with
    | _ :: _, 'x' :: afterX =>
      match afterX.takeWhile Char.isDigit with
      | [] => none
      | h :: hs => some (h :: hs)
    | _, _ => none
  else none

/-- The `.*RESOLUTION=\d+x(\d+)` step within one manifest line: the
greedy `.*` backtracks from the end of the line, so the match uses the
last position in the line where `RESOLUTION=\d+x\d+` succeeds. -/
def lastResolutionIn : List Char → Option (List Char)
  | [] => none
  | c :: rest =>
    match lastResolutionIn rest with
    | some h => some h
    | none => tryResolutionAt (c :: rest)

/-- The lazy `(.*?\.m3u8)` step: the shortest prefix of `l` that ends
in `.m3u8` and contains no line terminator, together with the
remainder after it.  `none` when a line terminator or the end of input
comes before any `.m3u8`. -/
def splitFirstM3u8 : List Char → Option (List Char × List Char)
  | [] => none
  | c :: rest =>
    if leadsWith m3u8Lit (c :: rest) then some (m3u8Lit, rest.drop 4)
    else if isRegexLineTerminator c then none
    else (splitFirstM3u8 rest).map fun p => (c :: p.1, p.2)

/-- Fuel-indexed model of the global exec loop over
`/#EXT-X-STREAM-INF:.*RESOLUTION=\d+x(\d+).*?\n(.*?\.m3u8)/g`
(lines 127-135).  Each returned pair is (capture 1: vertical
resolution digits, capture 2: the sub-manifest reference on the
following line).  `.` matches any character except the ECMAScript line
terminators LF, CR, U+2028 and U+2029, so a CRLF playlist yields no
matches.  The engine scans for the leftmost position where the
pattern matches — the literal head, then the line-bounded resolution
step, then the newline, then the lazy sub-manifest capture — emits the
captures and resumes immediately after the end of the match; a failed
attempt advances the scan by one character.  Each step consumes at
least one character, so fuel equal to the input length (as supplied by
`execVariants`) never runs out before the input does. -/
def execVariantsF : Nat → List Char → List (List Char × List Char)
  | 0, _ => []
  | _ + 1, [] => []
  | fuel + 1, c :: rest =>
    if leadsWith streamInfLit (c :: rest) then
      match splitAtNewline ((c :: rest).drop streamInfLit.length) with
      | some (line, afterNl) =>
        match lastResolutionIn line with
        | some height =>
          match splitFirstM3u8 afterNl with
          | some (sub, afterMatch) =>
            (height, sub) :: execVariantsF fuel afterMatch
          | none => execVariantsF fuel rest
        | none => execVariantsF fuel rest
      | none => execVariantsF fuel rest
    else execVariantsF fuel rest

/-- The exec loop at its natural fuel. -/
def execVariants (l : List Char) : List (List Char × List Char) :=
  execVariantsF l.length l

/-- The body of the while loop at lines 131-135: each match yields
`quality` (capture 1) and `link`, capture 2 resolved against the master
manifest URL by `new URL(match[2], masterUrl).href`.  When the URL
constructor throws on any match, the throw escapes the loop before
anything is pushed to `streams`, so the whole collection is the thrown
error. -/
def collectQualities (masterUrl : String) :
    List (List Char × List Char) → Except String (List (String × String))
  | [] => Except.ok []
  | m :: rest =>
    match urlResolveS (String.mk m.2) masterUrl with
    | none => Except.error "Invalid URL"
    | some link =>
      (collectQualities masterUrl rest).map fun qs =>
        (String.mk m.1, link) :: qs

/-- Hexadecimal digit character for `n < 16`, lowercase letters, as
produced by `JSON.stringify` in `\u00..` escapes. -/
def hexDig (n : Nat) : Char :=
  if n < 10 then Char.ofNat (48 + n) else Char.ofNat (87 + n)

/-- Value of a hexadecimal digit character as accepted by
`JSON.parse` in `\u....` escapes. -/
def hexVal (c : Char) : Option Nat :=
  if c.isDigit then some (c.toNat - 48)
  else if 'a' ≤ c && c ≤ 'f' then some (c.toNat - 87)
  else if 'A' ≤ c && c ≤ 'F' then some (c.toNat - 55)
  else none

/-- The escape `JSON.stringify` applies to one character inside a
string literal: `"` and backslash are escaped, the control characters
with short escapes use them, the remaining control characters become
`\u00..`, and every other character stands for itself. -/
def escChar (c : Char) : List Char :=
  if c = '"' then ['\\', '"']
  else if c = '\\' then ['\\', '\\']
  else if c = '\x08' then ['\\', 'b']
  else if c = '\x0c' then ['\\', 'f']
  else if c = '\n' then ['\\', 'n']
  else if c = '\r' then ['\\', 'r']
  else if c = '\t' then ['\\', 't']
  else if c.toNat < 32 then
    ['\\', 'u', '0', '0', hexDig (c.toNat / 16), hexDig (c.toNat % 16)]
  else [c]

/-- A JSON string literal for `s`, including the surrounding quotes. -/
def encStr (s : List Char) : List Char :=
  '"' :: s.flatMap escChar ++ ['"']

/-- The characters of the object key token `"title":`. -/
def keyTitleLit : List Char := "\"title\":".data

/-- The characters of the object key token `"url":`. -/
def keyUrlLit : List Char := "\"url\":".data

/-- The characters of the object key token `"name":`. -/
def keyNameLit : List Char := "\"name\":".data

/-- `JSON.stringify` of one stream object: keys in insertion order
(`title`, `url`, `name`, the order of the object literals at lines
139-143, 146-150, 180-184), no whitespace. -/
def encLoc (x : StreamLocator) : List Char :=
  '\x7b' :: (keyTitleLit ++ encStr x.title.data
    ++ ',' :: keyUrlLit ++ encStr x.url.data
    ++ ',' :: keyNameLit ++ encStr x.name.data ++ ['\x7d'])

/-- The elements of a JSON array after its first element: either the
closing bracket or a comma and a further element. -/
def encTail : List StreamLocator → List Char
  | [] => [']']
  | x :: xs => ',' :: encLoc x ++ encTail xs

/-- `JSON.stringify(streams)` (lines 81/96): a JSON array of stream
objects. -/
def encList : List StreamLocator → List Char
  | [] => ['[', ']']
  | x :: xs => '[' :: encLoc x ++ encTail xs

/-- String form of `JSON.stringify(streams)`. -/
def stringifyStreams (l : List StreamLocator) : String :=
  String.mk (encList l)

/-- The `JSON.parse` unescape table for single-character escapes. -/
def unescapeOf : Char → Option Char
  | '"' => some '"'
  | '\\' => some '\\'
  | '/' => some '/'
  | 'b' => some '\x08'
  | 'f' => some '\x0c'
  | 'n' => some '\n'
  | 'r' => some '\r'
  | 't' => some '\t'
  | _ => none

/-- Parses the body of a JSON string literal (the opening quote already
consumed) up to its closing quote: the decoded characters and the
remaining input.  Mirrors `JSON.parse` on string literals; a `\u`
escape denoting a surrogate half is outside the model (the encoder
never emits one). -/
def parseStrBody : List Char → Option (List Char × List Char)
  | [] => none
  | c :: rest =>
    if c = '"' then some ([], rest)
    else if c = '\\' then
      match rest with
      | 'u' :: d1 :: d2 :: d3 :: d4 :: rest2 =>
        match hexVal d1, hexVal d2, hexVal d3, hexVal d4 with
        | some a, some b, some c3, some d =>
          (parseStrBody rest2).map fun p =>
            (Char.ofNat (((a * 16 + b) * 16 + c3) * 16 + d) :: p.1, p.2)
        | _, _, _, _ => none
      | e :: rest2 =>
        match unescapeOf e with
        | some u => (parseStrBody rest2).map fun p => (u :: p.1, p.2)
        | none => none
      | [] => none
    else (parseStrBody rest).map fun p => (c :: p.1, p.2)

/-- Consumes the literal token `t` from the head of `l`. -/
def expectTok (t l : List Char) : Option (List Char) :=
  if leadsWith t l then some (l.drop t.length) else none

/-- Parses one stream object in the rigid shape `encLoc` produces
(`JSON.parse` restricted to the image of this program's
`JSON.stringify` payloads). -/
def parseLoc (l : List Char) : Option (StreamLocator × List Char) :=
  (expectTok ('\x7b' :: keyTitleLit ++ ['"']) l).bind fun r1 =>
  (parseStrBody r1).bind fun pt =>
  (expectTok (',' :: keyUrlLit ++ ['"']) pt.2).bind fun r3 =>
  (parseStrBody r3).bind fun pu =>
  (expectTok (',' :: keyNameLit ++ ['"']) pu.2).bind fun r5 =>
  (parseStrBody r5).bind fun pn =>
  (expectTok ['\x7d'] pn.2).map fun r7 =>
  (⟨String.mk pt.1, String.mk pu.1, String.mk pn.1⟩, r7)

/-- Fuel-indexed parse of the elements of a non-empty locator array,
ending exactly at the closing bracket.  Each element consumes at least
one character, so fuel equal to the input length (as supplied by
`parseStreamsChars`) never runs out before the input does. -/
def parseItemsF : Nat → List Char → Option (List StreamLocator)
  | 0, _ => none
  | fuel + 1, l =>
    (parseLoc l).bind fun pr =>
      match pr.2 with
      | [']'] => some [pr.1]
      | ',' :: r2 => (parseItemsF fuel r2).map fun xs => pr.1 :: xs
      | _ => none

/-- Model of `JSON.parse(cached)` (lines 81) on this program's cached
stream payloads: a JSON array of stream objects in the exact shape
`stringifyStreams` writes; `none` models `JSON.parse` throwing (or
yielding something other than such an array). -/
def parseStreamsChars (l : List Char) : Option (List StreamLocator) :=
  match l with
  | '[' :: r => if r = [']'] then some [] else parseItemsF r.length r
  | _ => none

/-- The execution environment of one request.  `fetch` models
`axios.get` (resolving with a textual body or rejecting), `parseHtml`
models `cheerio.load` turning a body into its elements in document
order, `cache` is the Redis key-value store, and `getFails`/`setFails`
model `redis.get`/`redis.set` rejecting (connectivity loss).  Entry
expiry is not modelled: an expired entry is represented by its absence
from `cache`. -/
structure World where
  fetch : String → Except String String
  parseHtml : String → List Element
  cache : List (String × String)
  getFails : Bool
  setFails : Bool

/-- Model of `redis.get(key)` (line 80): the stored value, `none` for a
miss (Redis `null`), or a rejection when the store is down. -/
def redisGet (w : World) (k : String) : Except String (Option String) :=
  if w.getFails then Except.error "redis unavailable"
  else Except.ok (w.cache.lookup k)

/-- Model of `redis.set(key, value, EX, ttl)` (line 96): the updated
store, or a rejection when the store is down.  The TTL argument is not
modelled (see `World`). -/
def redisSet (w : World) (k v : String) :
    Except String (List (String × String)) :=
  if w.setFails then Except.error "redis unavailable"
  else Except.ok ((k, v) :: w.cache)

/-- The page URL template of the primary resolver (line 109). -/
def cuevanaPageUrl (id : String) : String := "https://cuevana3.me/" ++ id

/-- The page URL template of the failover resolver (line 167). -/
def failoverPageUrl (id : String) : String := "https://pelisplushd.net/ver/" ++ id

/-- The try-block of `scrapeCuevanaStream` (lines 108-156): fetch the
page, extract the iframe source, fetch the iframe, extract the master
manifest URL, fetch the master manifest, collect the variant matches
and build the stream list — either one locator per variant titled
`<height>p`, or the single `Auto (Master)` locator when no variant
matched.  Any stage failure is the thrown error. -/
def cuevanaBody (w : World) (id : String) : Except String (List StreamLocator) :=
  match w.fetch (cuevanaPageUrl id) with
  | Except.error e => Except.error e
  | Except.ok page =>
    match extractFrameSource (w.parseHtml page) with
    | Except.error e => Except.error e
    | Except.ok iframeUrl =>
      match w.fetch iframeUrl with
      | Except.error e => Except.error e
      | Except.ok iframeHtml =>
        match m3u8MasterScanS iframeHtml with
        | none => Except.error "No .m3u8 master link found"
        | some masterUrl =>
          match w.fetch masterUrl with
          | Except.error e => Except.error e
          | Except.ok playlist =>
            match collectQualities masterUrl (execVariants playlist.data) with
            | Except.error e => Except.error e
            | Except.ok qualities =>
              if qualities.length ≠ 0 then
                Except.ok (qualities.map fun q =>
                  ⟨q.1 ++ "p", q.2, "Cuevana Stream"⟩)
              else
                Except.ok [⟨"Auto (Master)", masterUrl, "Cuevana Stream"⟩]

/-- `scrapeCuevanaStream` (lines 106-161): the try-block result, with
every thrown error caught, logged and converted into the empty list. -/
def scrapeCuevanaStream (w : World) (id : String) : List StreamLocator :=
  match cuevanaBody w id with
  | Except.ok streams => streams
  | Except.error _ => []

/-- The try-block of `scrapeFailoverStream` (lines 166-188): fetch the
page, extract the iframe source, fetch the iframe, extract the first
m3u8 URL and emit the single `Auto (Failover)` locator for it. -/
def failoverBody (w : World) (id : String) : Except String (List StreamLocator) :=
  match w.fetch (failoverPageUrl id) with
  | Except.error e => Except.error e
  | Except.ok page =>
    match extractFrameSource (w.parseHtml page) with
    | Except.error e => Except.error e
    | Except.ok iframeUrl =>
      match w.fetch iframeUrl with
      | Except.error e => Except.error e
      | Except.ok iframeHtml =>
        match m3u8MasterScanS iframeHtml with
        | none => Except.error "No .m3u8 link found in failover"
        | some u => Except.ok [⟨"Auto (Failover)", u, "Failover Stream"⟩]

/-- `scrapeFailoverStream` (lines 164-193): the try-block result, with
every thrown error caught, logged and converted into the empty list. -/
def scrapeFailoverStream (w : World) (id : String) : List StreamLocator :=
  match failoverBody w id with
  | Except.ok streams => streams
  | Except.error _ => []

/-- The failover orchestration (lines 85-93), abstracted over the two
resolver invocations: invoke the primary; if its list is non-empty
(`!streams.length` false) keep it, otherwise invoke the failover and
keep its result. -/
def failoverOrchestrate (primary failover : Unit → List StreamLocator) :
    List StreamLocator :=
  if (primary ()).length ≠ 0 then primary () else failover ()

/-- The stream list the handler resolves on a cache miss: the
orchestration instantiated with the two concrete resolvers. -/
def orchestratedStreams (w : World) (id : String) : List StreamLocator :=
  failoverOrchestrate (fun _ => scrapeCuevanaStream w id)
    (fun _ => scrapeFailoverStream w id)

/-- The try-block of the stream handler after a cache miss
(lines 83-100): resolve with failover, and when the result is
non-empty write it to the cache; a `redis.set` rejection is caught and
logged, leaving the already-resolved list to be returned with the
store unchanged.  Returns the streams and the resulting store. -/
def handlerBody (w : World) (id : String) :
    List StreamLocator × List (String × String) :=
  if (orchestratedStreams w id).length ≠ 0 then
    match redisSet w ("stream:" ++ id)
        (stringifyStreams (orchestratedStreams w id)) with
    | Except.ok cache2 => (orchestratedStreams w id, cache2)
    | Except.error _ => (orchestratedStreams w id, w.cache)
  else (orchestratedStreams w id, w.cache)

/-- The stream handler (lines 78-103).  `await redis.get` and
`JSON.parse(cached)` stand before the try-block, so their failures
reject the whole handler (`Except.error`); a truthy cached value (a
non-empty string) is parsed and returned with the store untouched; a
miss (null or empty string) falls through to `handlerBody`. -/
def streamHandler (w : World) (id : String) :
    Except String (List StreamLocator × List (String × String)) :=
  match redisGet w ("stream:" ++ id) with
  | Except.error e => Except.error e
  | Except.ok (some cached) =>
    if cached ≠ "" then
      match parseStreamsChars cached.data with
      | some streams => Except.ok (streams, w.cache)
      | none => Except.error "JSON parse failure"
    else Except.ok (handlerBody w id)
  | Except.ok none => Except.ok (handlerBody w id)

/-- Whether a URL begins with `http://` or `https://`. -/
def startsWithHttpL (l : List Char) : Bool :=
  leadsWith httpsLit l || leadsWith httpLit l

/-- String form of `startsWithHttpL`. -/
def startsWithHttpS (s : String) : Bool := startsWithHttpL s.data

/-- String form of `hasUrlScheme`. -/
def hasUrlSchemeS (s : String) : Bool := hasUrlScheme s.data

/-- A master playlist with two variant declarations, the quality-tier
test vector of the specification (1280x720 and 640x360). -/
def twoVariantPlaylist : String :=
  "#EXT-X-STREAM-INF:BANDWIDTH=800000,RESOLUTION=1280x720\n720p.m3u8\n#EXT-X-STREAM-INF:BANDWIDTH=400000,RESOLUTION=640x360\n360p.m3u8\n"

/-- A master playlist with one variant declaration whose sub-manifest
reference carries an explicit ftp scheme. -/
def ftpVariantPlaylist : String :=
  "#EXT-X-STREAM-INF:RESOLUTION=1280x720\nftp://e/a.m3u8\n"

/-- The iframe body used by the concrete environments: it carries the
master manifest URL in a double-quoted attribute. -/
def iframeBodyFixture : String := "src=\"https://h/a/m.m3u8\""

/-- Concrete environment in which the primary source succeeds end to
end with the two-variant playlist; cache empty, store up. -/
def wOk : World where
  fetch := fun u =>
    if u = "https://cuevana3.me/idX" then Except.ok "PAGE"
    else if u = "IFRAME" then Except.ok iframeBodyFixture
    else if u = "https://h/a/m.m3u8" then Except.ok twoVariantPlaylist
    else Except.error "network down"
  parseHtml := fun h =>
    if h = "PAGE" then [⟨"iframe", some "IFRAME"⟩] else []
  cache := []
  getFails := false
  setFails := false

/-- The 720p locator `wOk` resolves. -/
def loc720 : StreamLocator :=
  ⟨"720p", "https://h/a/720p.m3u8", "Cuevana Stream"⟩

/-- The 360p locator `wOk` resolves. -/
def loc360 : StreamLocator :=
  ⟨"360p", "https://h/a/360p.m3u8", "Cuevana Stream"⟩

/-- Concrete environment in which every fetch fails; cache empty,
store up. -/
def wDown : World where
  fetch := fun _ => Except.error "network down"
  parseHtml := fun _ => []
  cache := []
  getFails := false
  setFails := false

/-- Environment whose cache-store reads reject. -/
def wGetFail : World :=
  ⟨wDown.fetch, wDown.parseHtml, [], true, false⟩

/-- Environment resolving like `wOk` but whose cache-store writes
reject. -/
def wSetFail : World :=
  ⟨wOk.fetch, wOk.parseHtml, [], false, true⟩

/-- Warm-cache environment: the cache already holds the serialized
`wOk` result and the network is down. -/
def wWarm : World :=
  ⟨wDown.fetch, wDown.parseHtml,
    [("stream:idX", stringifyStreams [loc720, loc360])], false, false⟩

/-- Environment whose master playlist's single variant reference
carries an ftp scheme. -/
def wFtp : World where
  fetch := fun u =>
    if u = "https://cuevana3.me/idX" then Except.ok "PAGE"
    else if u = "IFRAME" then Except.ok iframeBodyFixture
    else if u = "https://h/a/m.m3u8" then Except.ok ftpVariantPlaylist
    else Except.error "network down"
  parseHtml := fun h =>
    if h = "PAGE" then [⟨"iframe", some "IFRAME"⟩] else []
  cache := []
  getFails := false
  setFails := false

/-- Environment in which the master manifest URL is successfully
extracted from the iframe body but the fetch of the master manifest
itself fails. -/
def wMasterDown : World where
  fetch := fun u =>
    if u = "https://cuevana3.me/idX" then Except.ok "PAGE"
    else if u = "IFRAME" then Except.ok iframeBodyFixture
    else Except.error "network down"
  parseHtml := fun h =>
    if h = "PAGE" then [⟨"iframe", some "IFRAME"⟩] else []
  cache := []
  getFails := false
  setFails := false

/-- A master playlist whose single matched variant reference carries an
out-of-range port, on which the URL constructor throws. -/
def badPortPlaylist : String :=
  "#EXT-X-STREAM-INF:RESOLUTION=1280x720\nhttp://h:99999/x.m3u8\n"

/-- Environment like `wOk` but serving `badPortPlaylist` as the master
manifest. -/
def wBadPort : World where
  fetch := fun u =>
    if u = "https://cuevana3.me/idX" then Except.ok "PAGE"
    else if u = "IFRAME" then Except.ok iframeBodyFixture
    else if u = "https://h/a/m.m3u8" then Except.ok badPortPlaylist
    else Except.error "network down"
  parseHtml := fun h =>
    if h = "PAGE" then [⟨"iframe", some "IFRAME"⟩] else []
  cache := []
  getFails := false
  setFails := false

end Scraper

deriving instance DecidableEq for Except

namespace Scraper

theorem leadsWith_append (t r : List Char) : leadsWith t (t ++ r) = true := by
  induction t with
  | nil => rfl
  | cons c cs ih => simp [leadsWith, ih]

theorem leadsWith_elim {t l : List Char} (h : leadsWith t l = true) :
    l = t ++ l.drop t.length := by
  induction t generalizing l with
  | nil => simp
  | cons c cs ih =>
    cases l with
    | nil => simp [leadsWith] at h
    | cons d ds =>
      simp only [leadsWith, Bool.and_eq_true, decide_eq_true_eq] at h
      obtain ⟨rfl, h2⟩ := h
      simpa [List.cons_append] using ih h2

theorem expectTok_append (t r : List Char) : expectTok t (t ++ r) = some r := by
  simp [expectTok, leadsWith_append, List.drop_left]

theorem hexVal_hexDig : ∀ n, n < 16 → hexVal (hexDig n) = some n := by decide

theorem char_ofNat_toNat (c : Char) : Char.ofNat c.toNat = c :=
  Char.ofNat_toNat c

theorem parseStrBody_other (c : Char) (tail : List Char)
    (h1 : ¬c = '"') (h2 : ¬c = '\\') :
    parseStrBody (c :: tail)
      = (parseStrBody tail).map fun p => (c :: p.1, p.2) := by
  rw [parseStrBody.eq_def]
  simp [h1, h2]

theorem parseStrBody_hex (d3 d4 : Char) (a b : Nat) (tail : List Char)
    (h3 : hexVal d3 = some a) (h4 : hexVal d4 = some b) :
    parseStrBody ('\\' :: 'u' :: '0' :: '0' :: d3 :: d4 :: tail)
      = (parseStrBody tail).map fun p =>
          (Char.ofNat (a * 16 + b) :: p.1, p.2) := by
  rw [parseStrBody.eq_def]
  simp only [Char.reduceEq, reduceIte]
  rw [show hexVal '0' = some 0 from by decide, h3, h4]
  simp only []
  have harith : ((0 * 16 + 0) * 16 + a) * 16 + b = a * 16 + b := by omega
  rw [harith]

theorem parseStrBody_esc (e u : Char) (tail : List Char)
    (hu : unescapeOf e = some u) (hne : e ≠ 'u') :
    parseStrBody ('\\' :: e :: tail)
      = (parseStrBody tail).map fun p => (u :: p.1, p.2) := by
  rw [parseStrBody.eq_def]
  simp only [Char.reduceEq, reduceIte]
  split
  · rename_i rest d1 d2 d3 d4 rest2 heq
    injection heq with he ht
    exact absurd he hne
  · rename_i rest e2 rest2 hdis heq
    injection heq with he ht
    subst he
    subst ht
    rw [hu]
  · rename_i rest heq
    exact absurd heq (by simp)

theorem parseStrBody_enc (s r : List Char) :
    parseStrBody (s.flatMap escChar ++ '"' :: r) = some (s, r) := by
  induction s with
  | nil =>
    simp only [List.flatMap_nil, List.nil_append]
    rw [parseStrBody.eq_def]
    simp
  | cons c cs ih =>
    rw [List.flatMap_cons, List.append_assoc]
    by_cases h1 : c = '"'
    · subst h1
      simp only [escChar, Char.reduceEq, reduceIte, List.cons_append,
        List.nil_append]
      rw [parseStrBody_esc '"' '"' _ (by decide) (by decide), ih]
      rfl
    by_cases h2 : c = '\\'
    · subst h2
      simp only [escChar, Char.reduceEq, reduceIte, List.cons_append,
        List.nil_append]
      rw [parseStrBody_esc '\\' '\\' _ (by decide) (by decide), ih]
      rfl
    by_cases h3 : c = '\x08'
    · subst h3
      simp only [escChar, Char.reduceEq, reduceIte, List.cons_append,
        List.nil_append]
      rw [parseStrBody_esc 'b' '\x08' _ (by decide) (by decide), ih]
      rfl
    by_cases h4 : c = '\x0c'
    · subst h4
      simp only [escChar, Char.reduceEq, reduceIte, List.cons_append,
        List.nil_append]
      rw [parseStrBody_esc 'f' '\x0c' _ (by decide) (by decide), ih]
      rfl
    by_cases h5 : c = '\n'
    · subst h5
      simp only [escChar, Char.reduceEq, reduceIte, List.cons_append,
        List.nil_append]
      rw [parseStrBody_esc 'n' '\n' _ (by decide) (by decide), ih]
      rfl
    by_cases h6 : c = '\r'
    · subst h6
      simp only [escChar, Char.reduceEq, reduceIte, List.cons_append,
        List.nil_append]
      rw [parseStrBody_esc 'r' '\r' _ (by decide) (by decide), ih]
      rfl
    by_cases h7 : c = '\t'
    · subst h7
      simp only [escChar, Char.reduceEq, reduceIte, List.cons_append,
        List.nil_append]
      rw [parseStrBody_esc 't' '\t' _ (by decide) (by decide), ih]
      rfl
    by_cases h8 : c.toNat < 32
    · have hdiv : c.toNat / 16 < 16 := by omega
      have hmod : c.toNat % 16 < 16 := Nat.mod_lt _ (by omega)
      have e1 := hexVal_hexDig _ hdiv
      have e2 := hexVal_hexDig _ hmod
      simp only [escChar, if_neg h1, if_neg h2, if_neg h3, if_neg h4, if_neg h5,
        if_neg h6, if_neg h7, if_pos h8, List.cons_append, List.nil_append]
      rw [parseStrBody_hex _ _ _ _ _ e1 e2, ih]
      simp only [Option.map_some']
      have harith : c.toNat / 16 * 16 + c.toNat % 16 = c.toNat := by omega
      rw [harith, char_ofNat_toNat]
    · simp only [escChar, if_neg h1, if_neg h2, if_neg h3, if_neg h4, if_neg h5,
        if_neg h6, if_neg h7, if_neg h8, List.cons_append, List.nil_append]
      rw [parseStrBody_other c _ h1 h2, ih]
      rfl

theorem expectTok_single (c : Char) (r : List Char) :
    expectTok [c] (c :: r) = some r := by
  simp [expectTok, leadsWith]

theorem parseLoc_enc (x : StreamLocator) (r : List Char) :
    parseLoc (encLoc x ++ r) = some (x, r) := by
  have assoc : encLoc x ++ r
      = ('\x7b' :: keyTitleLit ++ ['"'])
        ++ (x.title.data.flatMap escChar ++ '"'
        :: ((',' :: keyUrlLit ++ ['"'])
        ++ (x.url.data.flatMap escChar ++ '"'
        :: ((',' :: keyNameLit ++ ['"'])
        ++ (x.name.data.flatMap escChar ++ '"'
        :: ('\x7d' :: r)))))) := by
    simp [encLoc, encStr]
  rw [parseLoc, assoc]
  simp only [expectTok_append, Option.some_bind, parseStrBody_enc,
    expectTok_single, Option.map_some']

theorem encLoc_length_pos (x : StreamLocator) : 0 < (encLoc x).length := by
  simp [encLoc]

theorem parseItemsF_enc :
    ∀ (xs : List StreamLocator) (x : StreamLocator) (fuel : Nat),
      (encLoc x ++ encTail xs).length ≤ fuel →
      parseItemsF fuel (encLoc x ++ encTail xs) = some (x :: xs) := by
  intro xs
  induction xs with
  | nil =>
    intro x fuel hf
    have hpos : 0 < fuel := by
      have := encLoc_length_pos x
      simp only [encTail, List.length_append, List.length_cons] at hf
      omega
    obtain ⟨f, rfl⟩ : ∃ f, fuel = f + 1 := ⟨fuel - 1, by omega⟩
    rw [parseItemsF, parseLoc_enc]
    simp [encTail]
  | cons y ys ih =>
    intro x fuel hf
    have hpos : 0 < fuel := by
      have := encLoc_length_pos x
      simp only [encTail, List.length_append, List.length_cons] at hf
      omega
    obtain ⟨f, rfl⟩ : ∃ f, fuel = f + 1 := ⟨fuel - 1, by omega⟩
    rw [parseItemsF, parseLoc_enc]
    have hb : (encLoc y ++ encTail ys).length ≤ f := by
      have hx := encLoc_length_pos x
      simp only [encTail, List.length_append, List.length_cons] at hf ⊢
      omega
    simp only [Option.some_bind, encTail]
    show (parseItemsF f (encLoc y ++ encTail ys)).map (fun xs => x :: xs) = _
    rw [ih y f hb]
    rfl

theorem parse_stringify (l : List StreamLocator) :
    parseStreamsChars (encList l) = some l := by
  cases l with
  | nil => rfl
  | cons x xs =>
    have hne : ¬(encLoc x ++ encTail xs = [']']) := by
      intro heq
      have hlen := congrArg List.length heq
      have hx := encLoc_length_pos x
      cases xs <;>
        simp only [encTail, List.length_append, List.length_cons,
          List.length_singleton, List.length_nil] at hlen <;> omega
    show parseStreamsChars ('[' :: (encLoc x ++ encTail xs)) = _
    rw [parseStreamsChars]
    simp only [if_neg hne]
    exact parseItemsF_enc xs x _ (Nat.le_refl _)

theorem hasUrlScheme_https_append (r : List Char) :
    hasUrlScheme (httpsLit ++ r) = true := by
  simp [httpsLit, hasUrlScheme, schemeTail, isSchemeTailChar, isAsciiAlpha]

theorem hasUrlScheme_http_append (r : List Char) :
    hasUrlScheme (httpLit ++ r) = true := by
  simp [httpLit, hasUrlScheme, schemeTail, isSchemeTailChar, isAsciiAlpha]

theorem startsWithHttp_hasUrlScheme (u : List Char)
    (h : startsWithHttpL u = true) : hasUrlScheme u = true := by
  unfold startsWithHttpL at h
  rcases Bool.or_eq_true_iff.mp h with hh | hh
  · rw [leadsWith_elim hh]
    exact hasUrlScheme_https_append _
  · rw [leadsWith_elim hh]
    exact hasUrlScheme_http_append _

theorem m3u8MasterScan_http (l u : List Char)
    (h : m3u8MasterScan l = some u) : startsWithHttpL u = true := by
  induction l with
  | nil => simp [m3u8MasterScan] at h
  | cons c rest ih =>
    rw [m3u8MasterScan.eq_def] at h
    simp only at h
    revert h
    unfold httpSchemeSplit
    by_cases hs : leadsWith httpsLit (c :: rest) = true
    · simp only [if_pos hs]
      by_cases hm : containsSub m3u8Lit
          ((((c :: rest).drop 8).takeWhile fun ch => !(isQuoteChar ch)).drop 1)
          = true
      · intro h
        simp only [hm, if_pos, reduceIte] at h
        injection h with h2
        subst h2
        simp [startsWithHttpL, leadsWith_append]
      · intro h
        simp only [hm] at h
        simp only [Bool.false_eq_true, if_false] at h
        exact ih h
    · simp only [Bool.not_eq_true] at hs
      simp only [hs, Bool.false_eq_true, if_false]
      by_cases ht : leadsWith httpLit (c :: rest) = true
      · simp only [if_pos ht]
        by_cases hm : containsSub m3u8Lit
            ((((c :: rest).drop 7).takeWhile fun ch => !(isQuoteChar ch)).drop 1)
            = true
        · intro h
          simp only [hm, reduceIte] at h
          injection h with h2
          subst h2
          simp [startsWithHttpL, leadsWith_append]
        · intro h
          simp only [hm] at h
          simp only [Bool.false_eq_true, if_false] at h
          exact ih h
      · simp only [Bool.not_eq_true] at ht
        simp only [ht, Bool.false_eq_true, if_false]
        exact ih

theorem urlResolveL_scheme (rel base u : List Char)
    (hb : startsWithHttpL base = true)
    (h : urlResolveL rel base = some u) :
    hasUrlScheme u = true := by
  unfold urlResolveL at h
  by_cases hr : hasUrlScheme rel = true
  · rw [if_pos hr] at h
    by_cases ha : absoluteRelOk rel = true
    · rw [if_pos ha] at h
      injection h with h2
      subst h2
      exact hr
    · rw [if_neg ha] at h
      simp at h
  · rw [if_neg hr] at h
    unfold startsWithHttpL at hb
    unfold httpSchemeSplit at h
    by_cases hs : leadsWith httpsLit base = true
    · simp only [if_pos hs] at h
      by_cases h2 : leadsWith ['/', '/'] rel = true
      · simp only [if_pos h2] at h
        by_cases ha : authorityOk ((rel.drop 2).takeWhile
            (fun c => c ≠ '/' && c ≠ '?' && c ≠ '#')) = true
        · simp only [if_pos ha] at h
          injection h with h3
          subst h3
          rw [leadsWith_elim h2]
          show hasUrlScheme
            (httpsLit.take 6 ++ ('/' :: '/' :: rel.drop 2)) = true
          simp [httpsLit, hasUrlScheme, schemeTail, isSchemeTailChar,
            isAsciiAlpha]
        · rw [if_neg ha] at h
          simp at h
      · simp only [h2, Bool.false_eq_true, if_false] at h
        by_cases h1 : leadsWith ['/'] rel = true
        · simp only [if_pos h1] at h
          injection h with h3
          subst h3
          rw [List.append_assoc]
          exact hasUrlScheme_https_append _
        · simp only [h1, Bool.false_eq_true, if_false] at h
          split at h
          · injection h with h3
            subst h3
            rw [List.append_assoc]
            exact hasUrlScheme_https_append _
          · injection h with h3
            subst h3
            rw [List.append_assoc, List.append_assoc]
            exact hasUrlScheme_https_append _
    · have hs2 : leadsWith httpLit base = true := by
        rcases Bool.or_eq_true_iff.mp hb with hx | hx
        · exact absurd hx hs
        · exact hx
      simp only [hs, Bool.false_eq_true, if_false, if_pos hs2] at h
      by_cases h2 : leadsWith ['/', '/'] rel = true
      · simp only [if_pos h2] at h
        by_cases ha : authorityOk ((rel.drop 2).takeWhile
            (fun c => c ≠ '/' && c ≠ '?' && c ≠ '#')) = true
        · simp only [if_pos ha] at h
          injection h with h3
          subst h3
          rw [leadsWith_elim h2]
          show hasUrlScheme
            (httpLit.take 5 ++ ('/' :: '/' :: rel.drop 2)) = true
          simp [httpLit, hasUrlScheme, schemeTail, isSchemeTailChar,
            isAsciiAlpha]
        · rw [if_neg ha] at h
          simp at h
      · simp only [h2, Bool.false_eq_true, if_false] at h
        by_cases h1 : leadsWith ['/'] rel = true
        · simp only [if_pos h1] at h
          injection h with h3
          subst h3
          rw [List.append_assoc]
          exact hasUrlScheme_http_append _
        · simp only [h1, Bool.false_eq_true, if_false] at h
          split at h
          · injection h with h3
            subst h3
            rw [List.append_assoc]
            exact hasUrlScheme_http_append _
          · injection h with h3
            subst h3
            rw [List.append_assoc, List.append_assoc]
            exact hasUrlScheme_http_append _

theorem urlResolveS_scheme (rel mu u : String)
    (hb : startsWithHttpS mu = true)
    (h : urlResolveS rel mu = some u) : hasUrlSchemeS u = true := by
  unfold urlResolveS at h
  cases hl : urlResolveL rel.data mu.data with
  | none => rw [hl] at h; simp at h
  | some ul =>
    rw [hl] at h
    simp only [Option.map_some'] at h
    injection h with h2
    subst h2
    exact urlResolveL_scheme _ _ _ hb hl

theorem collectQualities_ok_titles (mu : String) :
    ∀ (ms : List (List Char × List Char)) (qs : List (String × String)),
      collectQualities mu ms = Except.ok qs →
      qs.map Prod.fst = ms.map fun m => String.mk m.1 := by
  intro ms
  induction ms with
  | nil =>
    intro qs h
    unfold collectQualities at h
    injection h with h2
    subst h2
    rfl
  | cons m rest ih =>
    intro qs h
    unfold collectQualities at h
    split at h
    · simp at h
    · rename_i link hlink
      cases hr : collectQualities mu rest with
      | error e =>
        rw [hr] at h
        simp [Except.map] at h
      | ok qs2 =>
        rw [hr] at h
        simp only [Except.map] at h
        injection h with h2
        subst h2
        simp [ih qs2 hr]

theorem collectQualities_ok_length (mu : String)
    (ms : List (List Char × List Char)) (qs : List (String × String))
    (h : collectQualities mu ms = Except.ok qs) : qs.length = ms.length := by
  have h2 := congrArg List.length (collectQualities_ok_titles mu ms qs h)
  simpa using h2

theorem collectQualities_ok_mem (mu : String) :
    ∀ (ms : List (List Char × List Char)) (qs : List (String × String)),
      collectQualities mu ms = Except.ok qs →
      ∀ q ∈ qs, ∃ rel, urlResolveS rel mu = some q.2 := by
  intro ms
  induction ms with
  | nil =>
    intro qs h q hq
    unfold collectQualities at h
    injection h with h2
    subst h2
    simp at hq
  | cons m rest ih =>
    intro qs h q hq
    unfold collectQualities at h
    split at h
    · simp at h
    · rename_i link hlink
      cases hr : collectQualities mu rest with
      | error e =>
        rw [hr] at h
        simp [Except.map] at h
      | ok qs2 =>
        rw [hr] at h
        simp only [Except.map] at h
        injection h with h2
        subst h2
        rcases List.mem_cons.mp hq with hq1 | hq2
        · subst hq1
          exact ⟨String.mk m.2, hlink⟩
        · exact ih qs2 hr q hq2

theorem cuevanaBody_ok_shape (w : World) (id : String) (l : List StreamLocator)
    (h : cuevanaBody w id = Except.ok l) :
    ∃ ihtml masterUrl playlist qs,
      m3u8MasterScanS ihtml = some masterUrl ∧
      w.fetch masterUrl = Except.ok playlist ∧
      collectQualities masterUrl (execVariants playlist.data) = Except.ok qs ∧
      ((qs ≠ [] ∧
        l = qs.map fun q => ⟨q.1 ++ "p", q.2, "Cuevana Stream"⟩) ∨
       (qs = [] ∧ l = [⟨"Auto (Master)", masterUrl, "Cuevana Stream"⟩])) := by
  unfold cuevanaBody at h
  split at h
  · simp at h
  · split at h
    · simp at h
    · split at h
      · simp at h
      · split at h
        · simp at h
        · split at h
          · simp at h
          · rename_i x4 p1 h1 x3 p2 h2 x2 p3 h3 x1 ms hms x0 pl hpl
            split at h
            · simp at h
            · rename_i xq qs hqs
              split at h
              · rename_i hlen
                refine ⟨p3, ms, pl, qs, hms, hpl, hqs, Or.inl ⟨?_, ?_⟩⟩
                · intro hemp
                  rw [hemp] at hlen
                  simp at hlen
                · injection h with h4
                  exact h4.symm
              · rename_i hlen
                refine ⟨p3, ms, pl, qs, hms, hpl, hqs, Or.inr ⟨?_, ?_⟩⟩
                · rw [← List.length_eq_zero]
                  exact not_not.mp hlen
                · injection h with h4
                  exact h4.symm

theorem failoverBody_ok_shape (w : World) (id : String) (l : List StreamLocator)
    (h : failoverBody w id = Except.ok l) :
    ∃ ihtml u,
      m3u8MasterScanS ihtml = some u ∧
      l = [⟨"Auto (Failover)", u, "Failover Stream"⟩] := by
  unfold failoverBody at h
  split at h
  · simp at h
  · split at h
    · simp at h
    · split at h
      · simp at h
      · split at h
        · simp at h
        · rename_i x3 p1 h1 x2 p2 h2 x1 p3 h3 x0 u hu
          refine ⟨p3, u, hu, ?_⟩
          injection h with h4
          exact h4.symm

theorem m3u8MasterScanS_http (s u : String)
    (h : m3u8MasterScanS s = some u) : startsWithHttpS u = true := by
  unfold m3u8MasterScanS at h
  cases hs : m3u8MasterScan s.data with
  | none => rw [hs] at h; simp at h
  | some v =>
    rw [hs] at h
    simp only [Option.map_some'] at h
    injection h with h2
    subst h2
    exact m3u8MasterScan_http _ _ hs

/-- C1: the failover orchestration of the stream handler invokes the
primary resolver first; a non-empty primary result is returned
unchanged and the orchestration result is then independent of the
failover resolver (it is never invoked); an empty primary result makes
the orchestration return exactly the failover resolver's result
(possibly empty); the result is always exactly one of the two
resolvers' lists, never a merge; and the handler's miss-path stream
list is this orchestration applied to the two concrete resolvers. -/
theorem c1_failover_short_circuit
    (p f : Unit → List StreamLocator) (w : World) (id : String) :
    (p () ≠ [] → failoverOrchestrate p f = p ()) ∧
    (p () = [] → failoverOrchestrate p f = f ()) ∧
    (failoverOrchestrate p f = p () ∨ failoverOrchestrate p f = f ()) ∧
    (p () ≠ [] → ∀ f2, failoverOrchestrate p f = failoverOrchestrate p f2) ∧
    orchestratedStreams w id
      = failoverOrchestrate (fun _ => scrapeCuevanaStream w id)
          (fun _ => scrapeFailoverStream w id) := by
  have hpos : p () ≠ [] → failoverOrchestrate p f = p () := by
    intro hne
    unfold failoverOrchestrate
    rw [if_pos]
    simpa [List.length_eq_zero] using hne
  have hneg : p () = [] → failoverOrchestrate p f = f () := by
    intro hemp
    unfold failoverOrchestrate
    rw [if_neg]
    simp [hemp]
  refine ⟨hpos, hneg, ?_, ?_, rfl⟩
  · by_cases hne : p () = []
    · exact Or.inr (hneg hne)
    · exact Or.inl (hpos hne)
  · intro hne f2
    rw [hpos hne]
    unfold failoverOrchestrate
    rw [if_pos]
    simpa [List.length_eq_zero] using hne

theorem c1_failover_short_circuit_witness :
    failoverOrchestrate (fun _ => [loc720]) (fun _ => [loc360]) = [loc720] ∧
    failoverOrchestrate (fun _ => ([] : List StreamLocator)) (fun _ => [loc360])
      = [loc360] :=
  ⟨(c1_failover_short_circuit (fun _ => [loc720]) (fun _ => [loc360])
      wDown "idX").1 (List.cons_ne_nil _ _),
   (c1_failover_short_circuit (fun _ => ([] : List StreamLocator))
      (fun _ => [loc360]) wDown "idX").2.1 rfl⟩

/-- C4: each source resolver is a total function into locator lists and
converts every failure of its pipeline into the empty list: a thrown
error anywhere in the try-block yields the empty list, and in
particular a failing page fetch does so for both resolvers, as does a
missing inline frame after a successful page fetch. -/
theorem c4_errors_swallowed (w : World) (id : String) :
    (∀ e, cuevanaBody w id = Except.error e → scrapeCuevanaStream w id = []) ∧
    (∀ e, failoverBody w id = Except.error e → scrapeFailoverStream w id = []) ∧
    (∀ e, w.fetch (cuevanaPageUrl id) = Except.error e →
      scrapeCuevanaStream w id = []) ∧
    (∀ e, w.fetch (failoverPageUrl id) = Except.error e →
      scrapeFailoverStream w id = []) ∧
    (∀ h e, w.fetch (cuevanaPageUrl id) = Except.ok h →
      extractFrameSource (w.parseHtml h) = Except.error e →
      scrapeCuevanaStream w id = []) := by
  refine ⟨?_, ?_, ?_, ?_, ?_⟩
  · intro e he
    unfold scrapeCuevanaStream
    rw [he]
  · intro e he
    unfold scrapeFailoverStream
    rw [he]
  · intro e he
    unfold scrapeCuevanaStream cuevanaBody
    rw [he]
  · intro e he
    unfold scrapeFailoverStream failoverBody
    rw [he]
  · intro h e hok he
    unfold scrapeCuevanaStream cuevanaBody
    rw [hok]
    simp only []
    rw [he]

theorem c4_errors_swallowed_witness :
    wDown.fetch (cuevanaPageUrl "movie-42") = Except.error "network down" ∧
    scrapeCuevanaStream wDown "movie-42" = [] ∧
    scrapeFailoverStream wDown "movie-42" = [] :=
  ⟨rfl,
   (c4_errors_swallowed wDown "movie-42").2.2.1 "network down" rfl,
   (c4_errors_swallowed wDown "movie-42").2.2.2.1 "network down" rfl⟩

set_option maxRecDepth 40000 in
/-- C7: contrary to the claim, a rejected cache-store read is not
treated as a cache miss: `await redis.get` stands before the handler's
try/catch, so the rejection propagates out of the stream handler
instead of degrading to live resolution.  A rejected cache-store write,
by contrast, is caught inside the try/catch: the already-resolved
non-empty list is still returned and the store is left unchanged. -/
theorem c7_cache_read_error_propagates :
    streamHandler wGetFail "movie-42" = Except.error "redis unavailable" ∧
    streamHandler wSetFail "idX" = Except.ok ([loc720, loc360], []) := by
  constructor
  · decide
  · decide

/-- C8 counterexample: a page whose only inline-frame element has no
src attribute contains an inline-frame element, yet the extraction step
takes the empty-result path — refuting the claim that it fails only
when no inline-frame element exists. -/
theorem c8_iframe_extraction_cex :
    ([⟨"iframe", (none : Option String)⟩] : List Element).any
        (fun e => e.tag = "iframe") = true ∧
    extractFrameSource [⟨"iframe", (none : Option String)⟩]
      = Except.error "Iframe not found" := by
  constructor
  · decide
  · decide

/-- C8 amended: the extraction step yields the src attribute of the
first inline-frame element whenever that attribute is present and
non-empty, and it takes the empty-result path if and only if the page
has no inline-frame element or the first inline-frame element's src
attribute is absent or empty. -/
theorem c8_iframe_extraction (doc : List Element) :
    ((∃ e, extractFrameSource doc = Except.error e) ↔
      (iframeSrcAttr doc = none ∨ iframeSrcAttr doc = some "")) ∧
    (∀ s, s ≠ "" →
      (extractFrameSource doc = Except.ok s ↔ iframeSrcAttr doc = some s)) := by
  unfold extractFrameSource
  cases hs : iframeSrcAttr doc with
  | none => simp
  | some s0 =>
    by_cases h0 : s0 = ""
    · subst h0
      simp
      exact fun s h h2 => h h2.symm
    · simp only [if_neg h0]
      constructor
      · simp [h0]
      · intro s hsne
        constructor
        · intro hok
          injection hok with h2
          rw [h2]
        · intro hsome
          injection hsome with h2
          rw [h2]

theorem c8_iframe_extraction_witness :
    ("u" : String) ≠ "" ∧
    extractFrameSource [⟨"iframe", some "u"⟩] = Except.ok "u" :=
  ⟨by decide,
   ((c8_iframe_extraction [⟨"iframe", some "u"⟩]).2 "u" (by decide)).mpr rfl⟩

theorem handlerBody_shape (w : World) (id : String) :
    (orchestratedStreams w id = [] ∧ handlerBody w id = ([], w.cache)) ∨
    (orchestratedStreams w id ≠ [] ∧ w.setFails = true ∧
      handlerBody w id = (orchestratedStreams w id, w.cache)) ∨
    (orchestratedStreams w id ≠ [] ∧ w.setFails = false ∧
      handlerBody w id
        = (orchestratedStreams w id,
           ("stream:" ++ id, stringifyStreams (orchestratedStreams w id))
             :: w.cache)) := by
  unfold handlerBody redisSet
  by_cases hq : (orchestratedStreams w id).length ≠ 0
  · have hne : orchestratedStreams w id ≠ [] := by
      simpa [List.length_eq_zero] using hq
    by_cases hsf : w.setFails = true
    · refine Or.inr (Or.inl ⟨hne, hsf, ?_⟩)
      rw [if_pos hq, if_pos hsf]
    · refine Or.inr (Or.inr ⟨hne, by simpa using hsf, ?_⟩)
      rw [if_pos hq, if_neg hsf]
  · have hemp : orchestratedStreams w id = [] := by
      rw [← List.length_eq_zero]
      exact not_not.mp hq
    refine Or.inl ⟨hemp, ?_⟩
    rw [if_neg hq, hemp]

set_option maxRecDepth 40000 in
/-- C2 counterexample: with every pipeline stage succeeding and the
master manifest fetched, the variant regex matches exactly one
declaration, whose sub-manifest reference is `http://h:99999/x.m3u8`,
yet the primary resolver emits zero locators: the URL constructor
throws on the out-of-range port inside the while loop, before anything
is pushed, and the catch returns the empty list — refuting the claim
that n ≥ 1 matches always yield exactly n locators. -/
theorem c2_quality_tier_cex :
    wBadPort.fetch (cuevanaPageUrl "idX") = Except.ok "PAGE" ∧
    extractFrameSource (wBadPort.parseHtml "PAGE") = Except.ok "IFRAME" ∧
    wBadPort.fetch "IFRAME" = Except.ok iframeBodyFixture ∧
    m3u8MasterScanS iframeBodyFixture = some "https://h/a/m.m3u8" ∧
    wBadPort.fetch "https://h/a/m.m3u8" = Except.ok badPortPlaylist ∧
    (execVariants badPortPlaylist.data).length = 1 ∧
    scrapeCuevanaStream wBadPort "idX" = [] := by
  refine ⟨by decide, by decide, by decide, by decide, by decide, by decide,
    by decide⟩

/-- C2 amended: once the primary resolver's pipeline reaches a
successfully fetched master manifest, the emitted list is determined
by the variant regex together with the URL resolution of its captures:
provided every matched sub-manifest reference resolves against the
master URL without the URL constructor throwing, n ≥ 1 matches yield
exactly n locators, the i-th titled by the i-th match's vertical
resolution followed by `p`, and zero matches yield exactly the single
`Auto (Master)` locator carrying the master manifest URL; when the
constructor throws on some match, the resolver returns the empty
list. -/
theorem c2_quality_tier (w : World)
    (id pageHtml iframeUrl iframeHtml masterUrl playlist : String)
    (hp : w.fetch (cuevanaPageUrl id) = Except.ok pageHtml)
    (hf : extractFrameSource (w.parseHtml pageHtml) = Except.ok iframeUrl)
    (hi : w.fetch iframeUrl = Except.ok iframeHtml)
    (hm : m3u8MasterScanS iframeHtml = some masterUrl)
    (hpl : w.fetch masterUrl = Except.ok playlist) :
    (∀ qs, collectQualities masterUrl (execVariants playlist.data)
        = Except.ok qs →
      (execVariants playlist.data ≠ [] →
        scrapeCuevanaStream w id
          = qs.map (fun q => ⟨q.1 ++ "p", q.2, "Cuevana Stream"⟩) ∧
        (scrapeCuevanaStream w id).length
          = (execVariants playlist.data).length ∧
        (scrapeCuevanaStream w id).map StreamLocator.title
          = (execVariants playlist.data).map fun m => String.mk m.1 ++ "p") ∧
      (execVariants playlist.data = [] →
        scrapeCuevanaStream w id
          = [⟨"Auto (Master)", masterUrl, "Cuevana Stream"⟩])) ∧
    (∀ e, collectQualities masterUrl (execVariants playlist.data)
        = Except.error e →
      scrapeCuevanaStream w id = []) := by
  constructor
  · intro qs hqs
    have hlen := collectQualities_ok_length masterUrl _ qs hqs
    have htitles := collectQualities_ok_titles masterUrl _ qs hqs
    constructor
    · intro hne
      have hqne : qs.length ≠ 0 := by
        rw [hlen]
        simpa [List.length_eq_zero] using hne
      have hscrape : scrapeCuevanaStream w id
          = qs.map fun q =>
              (⟨q.1 ++ "p", q.2, "Cuevana Stream"⟩ : StreamLocator) := by
        unfold scrapeCuevanaStream cuevanaBody
        simp only [hp, hf, hi, hm, hpl, hqs]
        rw [if_pos hqne]
      refine ⟨hscrape, ?_, ?_⟩
      · rw [hscrape, List.length_map, hlen]
      · rw [hscrape, List.map_map]
        have hmapped : (qs.map Prod.fst).map (fun t => t ++ "p")
            = ((execVariants playlist.data).map
                fun m => String.mk m.1).map (fun t => t ++ "p") := by
          rw [htitles]
        simpa [List.map_map, Function.comp] using hmapped
    · intro hemp
      have hq0 : ¬(qs.length ≠ 0) := by
        rw [hlen, hemp]
        simp
      unfold scrapeCuevanaStream cuevanaBody
      simp only [hp, hf, hi, hm, hpl, hqs]
      rw [if_neg hq0]
  · intro e he
    unfold scrapeCuevanaStream cuevanaBody
    simp only [hp, hf, hi, hm, hpl, he]

set_option maxRecDepth 40000 in
theorem c2_quality_tier_witness :
    collectQualities "https://h/a/m.m3u8" (execVariants twoVariantPlaylist.data)
      = Except.ok [("720", "https://h/a/720p.m3u8"),
          ("360", "https://h/a/360p.m3u8")] ∧
    execVariants twoVariantPlaylist.data ≠ [] ∧
    scrapeCuevanaStream wOk "idX"
      = ([("720", "https://h/a/720p.m3u8"), ("360", "https://h/a/360p.m3u8")] :
          List (String × String)).map
          (fun q => ⟨q.1 ++ "p", q.2, "Cuevana Stream"⟩) ∧
    scrapeCuevanaStream wOk "idX" = [loc720, loc360] :=
  ⟨by decide, by decide,
   (((c2_quality_tier wOk "idX" "PAGE" "IFRAME" iframeBodyFixture
      "https://h/a/m.m3u8" twoVariantPlaylist (by decide) (by decide)
      (by decide) (by decide) (by decide)).1
      [("720", "https://h/a/720p.m3u8"), ("360", "https://h/a/360p.m3u8")]
      (by decide)).1 (by decide)).1,
   by decide⟩

/-- C3: the stream handler never writes the cache when the resolved
list is empty — whenever the handler returns normally with an empty
stream list, the store it leaves behind is exactly the store it
started from, so a later request misses again; equivalently, a changed
store implies the returned list was non-empty. -/
theorem c3_empty_not_cached (w : World) (id : String)
    (ls : List StreamLocator) (c2 : List (String × String))
    (h : streamHandler w id = Except.ok (ls, c2)) :
    (ls = [] → c2 = w.cache) ∧ (c2 ≠ w.cache → ls ≠ []) := by
  have hmain : ls = [] → c2 = w.cache := by
    intro hemp
    subst hemp
    unfold streamHandler redisGet at h
    split at h
    · simp at h
    · split at h
      · split at h
        · injection h with h2
          exact (Prod.mk.injEq _ _ _ _).mp h2 |>.2.symm
        · simp at h
      · injection h with h2
        rcases handlerBody_shape w id with ⟨he, hb⟩ | ⟨hne, _, hb⟩ | ⟨hne, _, hb⟩
        · rw [hb] at h2
          exact ((Prod.mk.injEq _ _ _ _).mp h2.symm).2
        · rw [hb] at h2
          exact absurd ((Prod.mk.injEq _ _ _ _).mp h2.symm).1.symm hne
        · rw [hb] at h2
          exact absurd ((Prod.mk.injEq _ _ _ _).mp h2.symm).1.symm hne
    · injection h with h2
      rcases handlerBody_shape w id with ⟨he, hb⟩ | ⟨hne, _, hb⟩ | ⟨hne, _, hb⟩
      · rw [hb] at h2
        exact ((Prod.mk.injEq _ _ _ _).mp h2.symm).2
      · rw [hb] at h2
        exact absurd ((Prod.mk.injEq _ _ _ _).mp h2.symm).1.symm hne
      · rw [hb] at h2
        exact absurd ((Prod.mk.injEq _ _ _ _).mp h2.symm).1.symm hne
  exact ⟨hmain, fun hc hl => hc (hmain hl)⟩

theorem c3_empty_not_cached_witness :
    streamHandler wDown "movie-42" = Except.ok ([], []) ∧
    ([] : List (String × String)) = wDown.cache :=
  ⟨by decide, (c3_empty_not_cached wDown "movie-42" [] [] (by decide)).1 rfl⟩

set_option maxRecDepth 40000 in
/-- C5 counterexample: a master playlist whose variant sub-manifest
reference is `ftp://e/a.m3u8` makes the primary resolver emit a
locator whose url does not begin with `http://` or `https://`
(`new URL` keeps a reference that carries its own explicit scheme),
refuting the claim that every emitted url begins with http(s). -/
theorem c5_url_http_cex :
    scrapeCuevanaStream wFtp "idX"
      = [⟨"720p", "ftp://e/a.m3u8", "Cuevana Stream"⟩] ∧
    startsWithHttpS "ftp://e/a.m3u8" = false := by
  constructor
  · decide
  · decide

/-- C5 amended: every locator url is an absolute URL carrying an
explicit scheme, never a page-relative reference; failover locator
urls always begin with `http://` or `https://` (the master-manifest
regex guarantees it), and so do primary locator urls except when the
matched variant reference itself carries an explicit — possibly
non-http — scheme, in which case the url is that reference. -/
theorem c5_url_absolute (w : World) (id : String) (loc : StreamLocator) :
    (loc ∈ scrapeCuevanaStream w id → hasUrlSchemeS loc.url = true) ∧
    (loc ∈ scrapeFailoverStream w id → startsWithHttpS loc.url = true) := by
  constructor
  · intro hmem
    unfold scrapeCuevanaStream at hmem
    cases hb : cuevanaBody w id with
    | error e => rw [hb] at hmem; simp at hmem
    | ok l =>
      rw [hb] at hmem
      obtain ⟨ihtml, mu, pl, qs, hms, hplf, hqs, hcase⟩ :=
        cuevanaBody_ok_shape w id l hb
      have hhttp : startsWithHttpS mu = true := m3u8MasterScanS_http _ _ hms
      rcases hcase with ⟨hne, rfl⟩ | ⟨hemp, rfl⟩
      · simp only [List.mem_map] at hmem
        obtain ⟨q, hq, rfl⟩ := hmem
        obtain ⟨rel, hrel⟩ := collectQualities_ok_mem mu _ qs hqs q hq
        exact urlResolveS_scheme rel mu q.2 hhttp hrel
      · simp only [List.mem_singleton] at hmem
        rw [hmem]
        exact startsWithHttp_hasUrlScheme _ hhttp
  · intro hmem
    unfold scrapeFailoverStream at hmem
    cases hb : failoverBody w id with
    | error e => rw [hb] at hmem; simp at hmem
    | ok l =>
      rw [hb] at hmem
      obtain ⟨ihtml, u, hms, rfl⟩ := failoverBody_ok_shape w id l hb
      simp only [List.mem_singleton] at hmem
      rw [hmem]
      exact m3u8MasterScanS_http _ _ hms

set_option maxRecDepth 40000 in
theorem c5_url_absolute_witness :
    (⟨"720p", "ftp://e/a.m3u8", "Cuevana Stream"⟩ : StreamLocator)
        ∈ scrapeCuevanaStream wFtp "idX" ∧
    hasUrlSchemeS "ftp://e/a.m3u8" = true :=
  ⟨by decide,
   (c5_url_absolute wFtp "idX"
      ⟨"720p", "ftp://e/a.m3u8", "Cuevana Stream"⟩).1 (by decide)⟩

set_option maxRecDepth 40000 in
/-- C6 counterexample: in an environment where the page and iframe
fetches succeed and the master manifest URL is extracted from the
iframe body, but the subsequent fetch of the master manifest itself
fails, the primary resolver returns the empty list — refuting the
claim that a resolver never returns zero locators once a master
manifest URL has been found. -/
theorem c6_master_found_empty_cex :
    wMasterDown.fetch (cuevanaPageUrl "idX") = Except.ok "PAGE" ∧
    extractFrameSource (wMasterDown.parseHtml "PAGE") = Except.ok "IFRAME" ∧
    wMasterDown.fetch "IFRAME" = Except.ok iframeBodyFixture ∧
    m3u8MasterScanS iframeBodyFixture = some "https://h/a/m.m3u8" ∧
    scrapeCuevanaStream wMasterDown "idX" = [] := by
  refine ⟨by decide, by decide, by decide, by decide, by decide⟩

/-- C6 amended: a resolver whose try-block completes without error
returns at least one locator — the failover resolver returns exactly
one whenever it extracts a master URL, and the primary resolver
returns one per variant or the master locator; but when a stage after
the master-URL extraction fails (the primary's master-manifest fetch),
the resolver returns the empty list even though a master URL was
found. -/
theorem c6_master_found_nonempty (w : World) (id : String)
    (l : List StreamLocator) :
    (cuevanaBody w id = Except.ok l →
      scrapeCuevanaStream w id = l ∧ l ≠ []) ∧
    (failoverBody w id = Except.ok l →
      scrapeFailoverStream w id = l ∧ l ≠ []) := by
  constructor
  · intro hb
    refine ⟨by unfold scrapeCuevanaStream; rw [hb], ?_⟩
    obtain ⟨ihtml, mu, pl, qs, hms, hplf, hqs, hcase⟩ :=
      cuevanaBody_ok_shape w id l hb
    rcases hcase with ⟨hne, rfl⟩ | ⟨hemp, rfl⟩
    · simpa using hne
    · simp
  · intro hb
    refine ⟨by unfold scrapeFailoverStream; rw [hb], ?_⟩
    obtain ⟨ihtml, u, hms, rfl⟩ := failoverBody_ok_shape w id l hb
    simp

set_option maxRecDepth 40000 in
theorem c6_master_found_nonempty_witness :
    cuevanaBody wOk "idX" = Except.ok [loc720, loc360] ∧
    scrapeCuevanaStream wOk "idX" = [loc720, loc360] ∧
    [loc720, loc360] ≠ ([] : List StreamLocator) :=
  ⟨by decide,
   ((c6_master_found_nonempty wOk "idX" [loc720, loc360]).1 (by decide)).1,
   ((c6_master_found_nonempty wOk "idX" [loc720, loc360]).1 (by decide)).2⟩

/-- C10: stream names are fixed per source: every locator the primary
resolver emits is named `Cuevana Stream`; every locator the failover
resolver emits is named `Failover Stream` and titled `Auto (Failover)`;
and the orchestrated list handed to the handler is uniformly from one
source — all its members carry the primary name or all carry the
failover name, never a mixture. -/
theorem c10_source_names (w : World) (id : String) :
    (∀ loc ∈ scrapeCuevanaStream w id, loc.name = "Cuevana Stream") ∧
    (∀ loc ∈ scrapeFailoverStream w id,
      loc.name = "Failover Stream" ∧ loc.title = "Auto (Failover)") ∧
    ((∀ loc ∈ orchestratedStreams w id, loc.name = "Cuevana Stream") ∨
     (∀ loc ∈ orchestratedStreams w id, loc.name = "Failover Stream")) := by
  have hcu : ∀ loc ∈ scrapeCuevanaStream w id, loc.name = "Cuevana Stream" := by
    intro loc hmem
    unfold scrapeCuevanaStream at hmem
    cases hb : cuevanaBody w id with
    | error e => rw [hb] at hmem; simp at hmem
    | ok l =>
      rw [hb] at hmem
      obtain ⟨ihtml, mu, pl, qs, hms, hplf, hqs, hcase⟩ :=
        cuevanaBody_ok_shape w id l hb
      rcases hcase with ⟨hne, rfl⟩ | ⟨hemp, rfl⟩
      · simp only [List.mem_map] at hmem
        obtain ⟨q, hq, rfl⟩ := hmem
        rfl
      · simp only [List.mem_singleton] at hmem
        rw [hmem]
  have hfo : ∀ loc ∈ scrapeFailoverStream w id,
      loc.name = "Failover Stream" ∧ loc.title = "Auto (Failover)" := by
    intro loc hmem
    unfold scrapeFailoverStream at hmem
    cases hb : failoverBody w id with
    | error e => rw [hb] at hmem; simp at hmem
    | ok l =>
      rw [hb] at hmem
      obtain ⟨ihtml, u, hms, rfl⟩ := failoverBody_ok_shape w id l hb
      simp only [List.mem_singleton] at hmem
      rw [hmem]
      exact ⟨rfl, rfl⟩
  refine ⟨hcu, hfo, ?_⟩
  unfold orchestratedStreams failoverOrchestrate
  by_cases hq : (scrapeCuevanaStream w id).length ≠ 0
  · left
    rw [if_pos hq]
    exact hcu
  · right
    rw [if_neg hq]
    intro loc hm
    exact (hfo loc hm).1

set_option maxRecDepth 40000 in
theorem c10_source_names_witness :
    loc720 ∈ scrapeCuevanaStream wOk "idX" ∧
    loc720.name = "Cuevana Stream" :=
  ⟨by decide, (c10_source_names wOk "idX").1 loc720 (by decide)⟩

theorem encList_ne_nil (L : List StreamLocator) : encList L ≠ [] := by
  cases L <;> simp [encList]

theorem stringifyStreams_ne_empty (L : List StreamLocator) :
    stringifyStreams L ≠ "" := by
  intro h
  exact encList_ne_nil L (congrArg String.data h)

theorem parse_stringify_data (l : List StreamLocator) :
    parseStreamsChars (stringifyStreams l).data = some l := parse_stringify l

/-- C9: a stored non-empty result is reproduced verbatim by any later
request: if a handler run returns the non-empty list L with resulting
store c2 and its cache write went through (the store was up), then
every run for the same id against store c2 with a working cache read
returns exactly (L, c2) — for every fetch environment whatsoever, so
neither resolver can influence the answer — because the
serialize-then-deserialize round trip through the cache (JSON
stringify then parse) preserves the locator list exactly. -/
theorem c9_cache_roundtrip (w : World) (id : String) (L : List StreamLocator)
    (c2 : List (String × String))
    (h : streamHandler w id = Except.ok (L, c2)) (hne : L ≠ [])
    (hsf : w.setFails = false) :
    parseStreamsChars (stringifyStreams L).data = some L ∧
    ∀ w2 : World, w2.cache = c2 → w2.getFails = false →
      streamHandler w2 id = Except.ok (L, c2) := by
  refine ⟨parse_stringify L, ?_⟩
  intro w2 hc hg
  have hbody : handlerBody w id = (L, c2) →
      streamHandler w2 id = Except.ok (L, c2) := by
    intro hb
    rcases handlerBody_shape w id with ⟨he, hsh⟩ | ⟨hone, hset, hsh⟩ |
        ⟨hone, hset, hsh⟩
    · rw [hsh] at hb
      exact absurd ((Prod.mk.injEq _ _ _ _).mp hb).1.symm hne
    · rw [hset] at hsf
      exact absurd hsf (by simp)
    · rw [hsh] at hb
      obtain ⟨hL, hcc⟩ := (Prod.mk.injEq _ _ _ _).mp hb
      unfold streamHandler redisGet
      rw [hg]
      simp only [Bool.false_eq_true, if_false]
      rw [hc, ← hcc, ← hL, List.lookup_cons_self]
      simp only []
      rw [if_pos (stringifyStreams_ne_empty _)]
      rw [parse_stringify_data]
  unfold streamHandler redisGet at h
  split at h
  · simp at h
  · rename_i x cached heq
    by_cases hw : w.getFails = true
    · rw [if_pos hw] at heq
      simp at heq
    · rw [if_neg hw] at heq
      injection heq with heq2
      split at h
      · rename_i hcne
        split at h
        · rename_i streams hparse
          injection h with h2
          obtain ⟨hL, hcc⟩ := (Prod.mk.injEq _ _ _ _).mp h2
          unfold streamHandler redisGet
          rw [hg]
          simp only [Bool.false_eq_true, if_false]
          rw [hc, ← hcc, heq2]
          simp only []
          rw [if_pos hcne, hparse, hL]
        · simp at h
      · injection h with h2
        exact hbody h2
  · injection h with h2
    exact hbody h2

set_option maxRecDepth 100000 in
theorem c9_cache_roundtrip_witness :
    streamHandler wOk "idX"
      = Except.ok ([loc720, loc360],
          [("stream:idX", stringifyStreams [loc720, loc360])]) ∧
    streamHandler wWarm "idX"
      = Except.ok ([loc720, loc360],
          [("stream:idX", stringifyStreams [loc720, loc360])]) := by
  have h1 : streamHandler wOk "idX"
      = Except.ok ([loc720, loc360],
          [("stream:idX", stringifyStreams [loc720, loc360])]) := by decide
  exact ⟨h1,
    (c9_cache_roundtrip wOk "idX" [loc720, loc360] _ h1 (by decide) rfl).2
      wWarm rfl rfl⟩

end Scraper
